import Mathlib

/-!
primer-render: note store (backend/index.js) and client controller (src/App.jsx)

A shallow embedding of the Express note store and of the React component
that keeps a local list of notes in step with it, followed by the
properties proved about them.

Conventions of the embedding:

* Note ids are JavaScript numbers that only ever hold the integers produced
  by `generateId` from the initial ids 1, 2, 3; they are given as `Nat`
  (exact integer arithmetic, i.e. ids below 2^53).
* Asynchronous calls are given as a `Pending` value: the request handed to
  `noteService`, and the two continuations (`.then` / `.catch`) as lists of
  effects. Continuations are closures over the state of the render in which
  the handler was created, exactly as in the component.
-/

namespace PrimerRender

/-! ## Data model -/

/-- A note record `{id, content, important}`. -/
structure Note where
  id : Nat
  content : String
  important : Bool
  deriving DecidableEq, Repr

/-- A JSON object with the optional fields `content`, `important` and `id`:
the body of `POST /api/notes` and the `noteObject` built by `addNote`.
A field that is `none` is absent (`undefined` when read). -/
structure Body where
  content : Option String
  important : Option Bool
  id : Option Nat
  deriving DecidableEq, Repr

/-! ## Server: backend/index.js -/

namespace Server

/-- What a handler writes to `response`. -/
inductive Payload where
  | notes (ns : List Note)
  | note (n : Note)
  | error (msg : String)
  | empty
  deriving DecidableEq, Repr

/-- An HTTP response: status code and payload. `response.json(x)` without a
preceding `status` call answers 200. -/
structure Response where
  status : Nat
  payload : Payload
  deriving DecidableEq, Repr

/-- The value of `let notes = [...]` when the process starts (lines 17-33). -/
def notes : List Note :=
  [ { id := 1, content := "HTML is easy", important := true },
    { id := 2, content := "Browser can execute only JavaScript", important := false },
    { id := 3, content := "GET and POST are the most important methods of HTTP protocol",
      important := true } ]

/-- The value of `Number(request.params.id)` compared against note ids with
`===`: `some k` when it is the natural number `k`, `none` for every other
number (NaN, negative or fractional), which is equal to no note id. -/
abbrev ReqId := Option Nat

/-- The test `note.id === id` for a request id. -/
def idEq (n : Note) (id : ReqId) : Bool :=
  id == some n.id

/-- `Math.max(...xs)` on natural numbers, for non-empty `xs`. -/
def mathMax (xs : List Nat) : Nat :=
  xs.foldl max 0

/-- `generateId` (lines 57-60): one more than the largest id, 1 on an empty
collection. -/
def generateId (ns : List Note) : Nat :=
  let maxId := if ns.length > 0 then mathMax (ns.map (fun n => n.id)) else 0
  maxId + 1

/-- `app.get('/api/notes')` (lines 36-38). -/
def getNotes (ns : List Note) : Response :=
  { status := 200, payload := .notes ns }

/-- `app.get('/api/notes/:id')` (lines 40-49). -/
def getNote (ns : List Note) (id : ReqId) : Response :=
  match ns.find? (fun note => idEq note id) with
  | some note => { status := 200, payload := .note note }
  | none => { status := 404, payload := .empty }

/-- `app.delete('/api/notes/:id')` (lines 51-55): the new collection and the
response. -/
def deleteNote (ns : List Note) (id : ReqId) : List Note × Response :=
  (ns.filter (fun note => !idEq note id), { status := 204, payload := .empty })

/-- Truthiness of `body.content`: absent and the empty string are falsy. -/
def truthy (content : Option String) : Bool :=
  match content with
  | none => false
  | some s => s != ""

/-- `app.post('/api/notes')` (lines 62-79): the new collection and the
response. -/
def postNote (ns : List Note) (body : Body) : List Note × Response :=
  match body.content with
  | none => (ns, { status := 400, payload := .error "content missing" })
  | some content =>
    if !truthy (some content) then
      (ns, { status := 400, payload := .error "content missing" })
    else
      let note : Note :=
        { content := content,
          important := body.important.getD false,
          id := generateId ns }
      (ns ++ [note], { status := 200, payload := .note note })

/-- One request that reaches the note store. -/
inductive Op where
  | post (body : Body)
  | delete (id : ReqId)
  | get
  deriving DecidableEq, Repr

/-- The collection after one request. -/
def step (ns : List Note) : Op → List Note
  | .post body => (postNote ns body).1
  | .delete id => (deleteNote ns id).1
  | .get => ns

/-- The collection after a sequence of requests, handled one at a time. -/
def run (ns : List Note) (ops : List Op) : List Note :=
  ops.foldl step ns

/-- The ids of a collection are strictly increasing in list order. -/
def Increasing (ns : List Note) : Prop :=
  ns.Pairwise (fun a b => a.id < b.id)

end Server

/-! ## Client: src/App.jsx -/

namespace Client

/-- The four `useState` cells of `App`, with the two things the component
leaves behind outside React: the delays of the pending `setTimeout`
callbacks (each callback is `setErrorMessage(null)`) and the lines written
with `console.error`. -/
structure App where
  notes : List Note
  newNote : String
  showAll : Bool
  errorMessage : Option String
  timers : List Nat
  errors : List String
  deriving DecidableEq, Repr

/-- The component as first rendered (lines 12-17). -/
def App.initial : App :=
  { notes := [], newNote := "", showAll := true, errorMessage := none,
    timers := [], errors := [] }

/-- A call made by a handler, in source order. `setTimeout ms` stands for
`setTimeout(() => setErrorMessage(null), ms)`, the only callback used. -/
inductive Effect where
  | setNotes (ns : List Note)
  | setNewNote (s : String)
  | setShowAll (b : Bool)
  | setErrorMessage (m : Option String)
  | setTimeout (ms : Nat)
  | consoleError (label : String)
  | consoleLog (text : String)
  | preventDefault
  deriving DecidableEq, Repr

/-- The state after one call. -/
def Effect.apply (a : App) : Effect → App
  | .setNotes ns => { a with notes := ns }
  | .setNewNote s => { a with newNote := s }
  | .setShowAll b => { a with showAll := b }
  | .setErrorMessage m => { a with errorMessage := m }
  | .setTimeout ms => { a with timers := a.timers ++ [ms] }
  | .consoleError label => { a with errors := a.errors ++ [label] }
  | .consoleLog _ => a
  | .preventDefault => a

/-- The state after a sequence of calls. -/
def effects (a : App) (es : List Effect) : App :=
  es.foldl Effect.apply a

/-- The oldest pending timer fires: the error message is cleared. -/
def fire (a : App) : App :=
  match a.timers with
  | [] => a
  | _ :: rest => { a with errorMessage := none, timers := rest }

/-- What `noteService` is asked to do. -/
inductive Request where
  | getAll
  | create (noteObject : Body)
  | update (id : Nat) (changedNote : Note)
  deriving DecidableEq, Repr

/-- A started round trip: the calls the handler makes before the request
goes out, the request, and the `.then` and `.catch` callbacks. The callbacks
are closures over the state of the render that created the handler. -/
structure Pending (ρ : Type) where
  before : List Effect
  request : Request
  onFulfilled : ρ → List Effect
  onRejected : List Effect

/-- The state when the promise is fulfilled with `v` while the component is
in state `cur`. -/
def resolve {ρ : Type} (cur : App) (p : Pending ρ) (v : ρ) : App :=
  effects cur (p.onFulfilled v)

/-- The state when the promise is rejected while the component is in state
`cur`. -/
def reject {ρ : Type} (cur : App) (p : Pending ρ) : App :=
  effects cur p.onRejected

/-- The text of the notification of line 31. -/
def removedMessage (content : String) : String :=
  "Note '" ++ content ++ "' was already removed from server"

/-- `toggleImportanceOf` (lines 20-37), created in the render with state
`a`. `none` is the TypeError raised by `note.important` when `find` gives
`undefined`. -/
def toggleImportanceOf (a : App) (id : Nat) : Option (Pending Note) :=
  match a.notes.find? (fun n => n.id == id) with
  | none => none
  | some note =>
    let changedNote : Note := { note with important := !note.important }
    some
      { before := []
        request := .update id changedNote
        onFulfilled := fun returnedNote =>
          [.setNotes (a.notes.map (fun note => if note.id != id then note else returnedNote))]
        onRejected :=
          [.setErrorMessage (some (removedMessage note.content)),
           .setTimeout 5000,
           .setNotes (a.notes.filter (fun n => n.id != id))] }

/-- What `noteService.getAll()` resolves to: an array of notes, or some
other value (given by its text). -/
inductive Fetched where
  | array (initialNotes : List Note)
  | other (raw : String)
  deriving DecidableEq, Repr

/-- The effect of `useEffect` (lines 39-55), run once after the first
render. -/
def useEffect : Pending Fetched :=
  { before := []
    request := .getAll
    onFulfilled := fun initialNotes =>
      match initialNotes with
      | .array ns => [.setNotes ns]
      | .other _ => [.consoleError "El backend devolvió un formato no válido:", .setNotes []]
    onRejected :=
      [.setErrorMessage (some "Failed to load notes"),
       .consoleError "Error al cargar las notas:",
       .setTimeout 5000] }

/-- `handleNoteChange` (lines 60-63). -/
def handleNoteChange (value : String) : List Effect :=
  [.consoleLog value, .setNewNote value]

/-- `notesToShow` (lines 66-68). -/
def notesToShow (a : App) : List Note :=
  if a.showAll then a.notes else a.notes.filter (fun note => note.important)

/-- `addNote` (lines 71-91), created in the render with state `a`; `coin` is
the outcome of `Math.random() < 0.5`. -/
def addNote (a : App) (coin : Bool) : Pending Note :=
  let noteObject : Body :=
    { content := some a.newNote,
      important := some coin,
      id := some (a.notes.length + 1) }
  { before := [.preventDefault]
    request := .create noteObject
    onFulfilled := fun returnedNote =>
      [.setNotes (a.notes ++ [returnedNote]), .setNewNote ""]
    onRejected := [.setErrorMessage (some "Failed to add note"), .setTimeout 5000] }

/-- Is this call a `setErrorMessage`? -/
def Effect.isSetErrorMessage : Effect → Bool
  | .setErrorMessage _ => true
  | _ => false

/-- Is this call a `setTimeout`? -/
def Effect.isTimeout : Effect → Bool
  | .setTimeout _ => true
  | _ => false

end Client

/-! ## Properties of the note store -/

namespace Server

theorem init_le_foldl_max (xs : List Nat) (a : Nat) : a ≤ xs.foldl max a := by
  induction xs generalizing a with
  | nil => simp
  | cons x xs ih => exact le_trans (le_max_left a x) (ih (max a x))

theorem le_foldl_max (xs : List Nat) (a x : Nat) (h : x ∈ xs) : x ≤ xs.foldl max a := by
  induction xs generalizing a with
  | nil => simp at h
  | cons y ys ih =>
    rcases List.mem_cons.mp h with rfl | h
    · exact le_trans (le_max_right a x) (init_le_foldl_max ys (max a x))
    · exact ih (max a y) h

theorem foldl_max_mem (xs : List Nat) (a : Nat) :
    xs.foldl max a = a ∨ xs.foldl max a ∈ xs := by
  induction xs generalizing a with
  | nil => simp
  | cons y ys ih =>
    rcases ih (max a y) with h | h
    · rcases max_choice a y with h2 | h2
      · left; simp only [List.foldl_cons]; rw [h, h2]
      · right; simp only [List.foldl_cons]; rw [h, h2]; exact List.mem_cons_self _ _
    · right; exact List.mem_cons_of_mem _ h

theorem mathMax_mem (xs : List Nat) (h : xs ≠ []) : mathMax xs ∈ xs := by
  rcases foldl_max_mem xs 0 with h0 | h0
  · cases xs with
    | nil => exact absurd rfl h
    | cons y ys =>
      have hy : y ≤ mathMax (y :: ys) := le_foldl_max (y :: ys) 0 y (List.mem_cons_self _ _)
      have : mathMax (y :: ys) = 0 := h0
      have hy0 : y = 0 := by omega
      rw [this, hy0]; exact List.mem_cons_self _ _
  · exact h0

theorem generateId_gt (ns : List Note) (n : Note) (h : n ∈ ns) : n.id < generateId ns := by
  have hpos : ns.length > 0 := List.length_pos_of_mem h
  have hle : n.id ≤ mathMax (ns.map (fun n => n.id)) :=
    le_foldl_max _ 0 _ (List.mem_map_of_mem (fun n => n.id) h)
  simp only [generateId, hpos, if_true]
  omega

theorem generateId_succ_of_mem (ns : List Note) (h : ns ≠ []) :
    ∃ n ∈ ns, generateId ns = n.id + 1 := by
  have hpos : ns.length > 0 := List.length_pos.mpr h
  have hm : mathMax (ns.map (fun n => n.id)) ∈ ns.map (fun n => n.id) :=
    mathMax_mem _ (by simpa using h)
  obtain ⟨n, hn, hid⟩ := List.mem_map.mp hm
  refine ⟨n, hn, ?_⟩
  simp only [generateId, hpos, if_true]
  omega

theorem postNote_accept (ns : List Note) (content : String) (important : Option Bool)
    (clientId : Option Nat) (h : content ≠ "") :
    postNote ns ⟨some content, important, clientId⟩ =
      (ns ++ [⟨generateId ns, content, important.getD false⟩],
       ⟨200, .note ⟨generateId ns, content, important.getD false⟩⟩) := by
  simp [postNote, truthy, h]

theorem postNote_reject (ns : List Note) (body : Body) (h : truthy body.content = false) :
    postNote ns body = (ns, ⟨400, .error "content missing"⟩) := by
  unfold postNote
  cases hc : body.content with
  | none => rfl
  | some c => rw [hc] at h; simp [h]

theorem increasing_notes : Increasing notes := by
  simp [Increasing, notes]

theorem increasing_step (ns : List Note) (op : Op) (h : Increasing ns) :
    Increasing (step ns op) := by
  cases op with
  | get => exact h
  | delete id => exact List.Pairwise.filter _ h
  | post body =>
    show Increasing (postNote ns body).1
    obtain ⟨content, important, clientId⟩ := body
    by_cases ht : truthy content = true
    · cases content with
      | none => simp [truthy] at ht
      | some c =>
        have hc : c ≠ "" := by simpa [truthy] using ht
        rw [postNote_accept ns c important clientId hc]
        refine List.pairwise_append.mpr ⟨h, List.pairwise_singleton _ _, ?_⟩
        intro a ha b hb
        rw [List.mem_singleton.mp hb]
        exact generateId_gt ns a ha
    · rw [postNote_reject ns _ (by simpa using ht)]
      exact h

theorem increasing_run (ns : List Note) (ops : List Op) (h : Increasing ns) :
    Increasing (run ns ops) := by
  induction ops generalizing ns with
  | nil => exact h
  | cons op ops ih => exact ih (step ns op) (increasing_step ns op h)

theorem increasing_nodup (ns : List Note) (h : Increasing ns) :
    (ns.map (fun n => n.id)).Nodup := by
  unfold Increasing at h
  rw [List.Nodup, List.pairwise_map]
  exact h.imp (fun hab => Nat.ne_of_lt hab)

theorem filter_not_idEq_of_forall (ns : List Note) (id : ReqId)
    (h : ∀ n ∈ ns, idEq n id = false) : ns.filter (fun note => !idEq note id) = ns := by
  apply List.filter_eq_self.mpr
  intro n hn
  simp [h n hn]

/-- C1: for every collection and every POST body with a non-empty content
(important a boolean or absent), the handler answers with a note carrying
the submitted content, the submitted important value (false when absent) and
an id that is one more than the largest id of the collection (1 when it is
empty); the new collection is the old one with that note appended, so the
following GET lists one more record and contains that note. -/
theorem create_appends_note_with_next_id (ns : List Note) (content : String)
    (important : Option Bool) (clientId : Option Nat) (h : content ≠ "") :
    ∃ note : Note,
      postNote ns ⟨some content, important, clientId⟩ = (ns ++ [note], ⟨200, .note note⟩)
      ∧ note.content = content
      ∧ note.important = important.getD false
      ∧ (∀ n ∈ ns, n.id < note.id)
      ∧ (ns ≠ [] → ∃ n ∈ ns, note.id = n.id + 1)
      ∧ (ns = [] → note.id = 1)
      ∧ ∃ listed : List Note,
          getNotes (postNote ns ⟨some content, important, clientId⟩).1 = ⟨200, .notes listed⟩
          ∧ listed.length = ns.length + 1
          ∧ note ∈ listed
          ∧ (getNotes ns).payload = .notes (listed.take ns.length) := by
  refine ⟨⟨generateId ns, content, important.getD false⟩,
    postNote_accept ns content important clientId h, rfl, rfl,
    fun n hn => generateId_gt ns n hn, fun hne => generateId_succ_of_mem ns hne, ?_, ?_⟩
  · intro hnil
    rw [hnil]
    rfl
  · refine ⟨ns ++ [⟨generateId ns, content, important.getD false⟩], ?_, ?_, ?_, ?_⟩
    · rw [postNote_accept ns content important clientId h]
      rfl
    · simp
    · simp
    · simp [getNotes]

/-- The example of the specification: posting "new" to the initial collection
answers with id 4, and the collection then has four records. -/
theorem create_appends_note_with_next_id_witness :
    "new" ≠ "" ∧
    (postNote notes ⟨some "new", some false, none⟩).2 = ⟨200, .note ⟨4, "new", false⟩⟩ ∧
    (postNote notes ⟨some "new", some false, none⟩).1.length = 4 := by
  obtain ⟨note, hpost, hc, hi, hlt, hmax, -, -⟩ :=
    create_appends_note_with_next_id notes "new" (some false) none (by decide)
  refine ⟨by decide, ?_, ?_⟩
  · rw [hpost]
    obtain ⟨n, hn, hid⟩ := hmax (by decide)
    have h4 : note.id ≤ 4 := by
      simp only [notes, List.mem_cons, List.mem_singleton, List.not_mem_nil, or_false] at hn
      rcases hn with rfl | rfl | rfl <;> simp [hid]
    have h3 : 3 < note.id :=
      hlt ⟨3, "GET and POST are the most important methods of HTTP protocol", true⟩
        (by simp [notes])
    cases note with
    | mk i c b =>
      simp only at hc hi h4 h3
      subst hc
      subst hi
      have : i = 4 := by omega
      subst this
      rfl
  · rw [hpost]
    simp [notes]

/-- C2: starting from the initial three notes, after every finite sequence
of requests (creates with any body, deletes of any id, reads) the ids of the
collection are strictly increasing in list order, hence pairwise distinct:
there is exactly one record per id in every reachable state. -/
theorem reachable_ids_strictly_increasing (ops : List Op) :
    (run notes ops).Pairwise (fun a b => a.id < b.id)
    ∧ ((run notes ops).map (fun n => n.id)).Nodup
    ∧ ∀ n ∈ run notes ops, ((run notes ops).filter (fun m => m.id = n.id)) = [n] := by
  have hinc := increasing_run notes ops increasing_notes
  refine ⟨hinc, increasing_nodup _ hinc, ?_⟩
  intro n hn
  have hnd : (run notes ops).Nodup := (increasing_nodup _ hinc).of_map _
  have hfilter : (run notes ops).filter (fun m => m.id = n.id)
      = (run notes ops).filter (fun m => m == n) := by
    apply List.filter_congr
    intro m hm
    have hinj : m.id = n.id → m = n :=
      fun hid => List.inj_on_of_nodup_map (increasing_nodup _ hinc) hm hn hid
    by_cases hmn : m = n
    · simp [hmn]
    · have : m.id ≠ n.id := fun hid => hmn (hinj hid)
      simp [hmn, this]
  rw [hfilter, List.filter_beq, List.count_eq_one_of_mem hnd hn]
  rfl

/-- C3, as stated, fails: id 3 belongs to a note of the initial collection;
after that note is deleted, the next create is given id 3 again. -/
theorem deleted_largest_id_is_assigned_again :
    3 ∈ notes.map (fun n => n.id)
    ∧ 3 ∉ (run notes [.delete (some 3)]).map (fun n => n.id)
    ∧ (postNote (run notes [.delete (some 3)]) ⟨some "again", none, none⟩).2
        = ⟨200, .note ⟨3, "again", false⟩⟩ := by
  refine ⟨by decide, by decide, ?_⟩
  rfl

/-- C3 (amended): in every run from the initial collection, an id that was
assigned to a note which has since been deleted is not assigned by a later
create made while the collection still holds a note with an id at least as
large; such a create assigns an id above every id then present. -/
theorem deleted_id_not_reassigned_while_larger_remains (ops1 ops2 : List Op) (d : Nat)
    (body : Body) (created : Note)
    (hkeep : ∃ m ∈ run notes (ops1 ++ [.delete (some d)] ++ ops2), d ≤ m.id)
    (hpost : (postNote (run notes (ops1 ++ [.delete (some d)] ++ ops2)) body).2
        = ⟨200, .note created⟩) :
    created.id ≠ d
    ∧ ∀ m ∈ run notes (ops1 ++ [.delete (some d)] ++ ops2), m.id < created.id := by
  generalize run notes (ops1 ++ [.delete (some d)] ++ ops2) = ns at hkeep hpost
  obtain ⟨content, important, clientId⟩ := body
  have hgen : created.id = generateId ns := by
    by_cases ht : truthy content = true
    · cases content with
      | none => simp [truthy] at ht
      | some c =>
        have hc : c ≠ "" := by simpa [truthy] using ht
        rw [postNote_accept ns c important clientId hc] at hpost
        have hn : (⟨generateId ns, c, important.getD false⟩ : Note) = created := by
          simpa using hpost
        rw [← hn]
    · rw [postNote_reject ns _ (by simpa using ht)] at hpost
      simp at hpost
  have hall : ∀ m ∈ ns, m.id < created.id := fun m hm => hgen ▸ generateId_gt ns m hm
  obtain ⟨m, hm, hdm⟩ := hkeep
  have := hall m hm
  exact ⟨by omega, hall⟩

/-- After note 2 of the initial collection is deleted, note 3 remains and the
next create is given id 4, not 2. -/
theorem deleted_id_not_reassigned_while_larger_remains_witness :
    (∃ m ∈ run notes ([] ++ [.delete (some 2)] ++ []), 2 ≤ m.id)
    ∧ (postNote (run notes ([] ++ [.delete (some 2)] ++ [])) ⟨some "x", none, none⟩).2
        = ⟨200, .note ⟨4, "x", false⟩⟩
    ∧ (4 : Nat) ≠ 2 :=
  have hkeep : ∃ m ∈ run notes ([] ++ [.delete (some 2)] ++ []), 2 ≤ m.id :=
    ⟨⟨3, "GET and POST are the most important methods of HTTP protocol", true⟩,
      by decide, by decide⟩
  have hpost : (postNote (run notes ([] ++ [.delete (some 2)] ++ []))
      ⟨some "x", none, none⟩).2 = ⟨200, .note ⟨4, "x", false⟩⟩ := rfl
  ⟨hkeep, hpost,
    (deleted_id_not_reassigned_while_larger_remains [] [] 2 ⟨some "x", none, none⟩
      ⟨4, "x", false⟩ hkeep hpost).1⟩

/-- C5: for every collection and every id, DELETE answers 204; the new
collection holds no record with that id and keeps every other record, as
often as before and in the original order; when no record has the id the
collection is unchanged, and deleting the id a second time changes nothing. -/
theorem delete_removes_exactly_the_id (ns : List Note) (id : ReqId) :
    (deleteNote ns id).2 = ⟨204, .empty⟩
    ∧ (∀ n ∈ (deleteNote ns id).1, some n.id ≠ id)
    ∧ (deleteNote ns id).1.Sublist ns
    ∧ (∀ n : Note, some n.id ≠ id → (deleteNote ns id).1.count n = ns.count n)
    ∧ ((∀ n ∈ ns, some n.id ≠ id) → (deleteNote ns id).1 = ns)
    ∧ (deleteNote (deleteNote ns id).1 id).1 = (deleteNote ns id).1
    ∧ (deleteNote (deleteNote ns id).1 id).2 = ⟨204, .empty⟩ := by
  refine ⟨rfl, ?_, List.filter_sublist _, ?_, ?_, ?_, rfl⟩
  · intro n hn
    have := (List.mem_filter.mp hn).2
    intro heq
    simp [idEq, ← heq] at this
  · intro n hn
    simp only [deleteNote]
    rw [List.count_filter]
    have : idEq n id = false := by
      simp only [idEq, beq_eq_false_iff_ne, ne_eq]
      exact fun h => hn h.symm
    simp [this]
  · intro h
    apply filter_not_idEq_of_forall
    intro n hn
    simp only [idEq, beq_eq_false_iff_ne, ne_eq]
    exact fun heq => h n hn heq.symm
  · simp [deleteNote, List.filter_filter]

end Server

/-! ## Properties of the client controller -/

namespace Client

theorem find_of_exists (ns : List Note) (id : Nat) (h : ∃ n ∈ ns, n.id = id) :
    ∃ note, ns.find? (fun n => n.id == id) = some note ∧ note ∈ ns ∧ note.id = id := by
  obtain ⟨n, hn, hid⟩ := h
  cases hf : ns.find? (fun n => n.id == id) with
  | none =>
    have := List.find?_eq_none.mp hf n hn
    simp [hid] at this
  | some note =>
    refine ⟨note, rfl, List.mem_of_find?_eq_some hf, ?_⟩
    have := List.find?_some hf
    simpa using this

theorem toggle_of_find (a : App) (id : Nat) (note : Note)
    (h : a.notes.find? (fun n => n.id == id) = some note) :
    toggleImportanceOf a id = some
      { before := []
        request := .update id { note with important := !note.important }
        onFulfilled := fun returnedNote =>
          [.setNotes (a.notes.map (fun note => if note.id != id then note else returnedNote))]
        onRejected :=
          [.setErrorMessage (some (removedMessage note.content)),
           .setTimeout 5000,
           .setNotes (a.notes.filter (fun n => n.id != id))] } := by
  simp [toggleImportanceOf, h]

/-- C6: on a local list that holds a note with the given id,
`toggleImportanceOf` asks for an update keyed by that id with a copy of the
note in which only `important` is negated, and changes nothing before the
response; when the update succeeds, the new local list has the length of the
list the toggle was started on, holds the returned note wherever that list
had a record with the id, and the same record everywhere else. -/
theorem toggle_success_replaces_in_place (a : App) (id : Nat)
    (h : ∃ n ∈ a.notes, n.id = id) :
    ∃ (note : Note) (p : Pending Note),
      a.notes.find? (fun n => n.id == id) = some note
      ∧ note ∈ a.notes ∧ note.id = id
      ∧ toggleImportanceOf a id = some p
      ∧ p.request = .update id ⟨note.id, note.content, !note.important⟩
      ∧ effects a p.before = a
      ∧ ∀ (cur : App) (returnedNote : Note),
          (resolve cur p returnedNote).notes.length = a.notes.length
          ∧ (∀ (i : Nat) (hi : i < a.notes.length),
              (a.notes[i].id = id → (resolve cur p returnedNote).notes[i]? = some returnedNote)
              ∧ (a.notes[i].id ≠ id → (resolve cur p returnedNote).notes[i]? = some a.notes[i]))
          ∧ (resolve cur p returnedNote).newNote = cur.newNote
          ∧ (resolve cur p returnedNote).errorMessage = cur.errorMessage
          ∧ (resolve cur p returnedNote).timers = cur.timers := by
  obtain ⟨note, hf, hmem, hid⟩ := find_of_exists a.notes id h
  refine ⟨note, _, hf, hmem, hid, toggle_of_find a id note hf, rfl, rfl, ?_⟩
  intro cur returnedNote
  refine ⟨by simp [resolve, effects, Effect.apply], ?_, rfl, rfl, rfl⟩
  intro i hi
  constructor
  · intro hi'
    simp [resolve, effects, Effect.apply, List.getElem?_map, List.getElem?_eq_getElem hi, hi']
  · intro hi'
    simp [resolve, effects, Effect.apply, List.getElem?_map, List.getElem?_eq_getElem hi, hi']

/-- Toggling note 2 of a two-note list: the request carries note 2 with
`important` negated, and the returned note takes its place. -/
theorem toggle_success_replaces_in_place_witness :
    (∃ n ∈ ({ App.initial with notes := [⟨1, "a", false⟩, ⟨2, "b", false⟩] } : App).notes,
        n.id = 2)
    ∧ ∃ (note : Note) (p : Pending Note),
        toggleImportanceOf { App.initial with notes := [⟨1, "a", false⟩, ⟨2, "b", false⟩] } 2
          = some p
        ∧ p.request = .update 2 ⟨note.id, note.content, !note.important⟩
        ∧ (resolve { App.initial with notes := [⟨1, "a", false⟩, ⟨2, "b", false⟩] } p
            ⟨2, "b", true⟩).notes.length = 2 := by
  have hex : ∃ n ∈ ({ App.initial with notes := [⟨1, "a", false⟩, ⟨2, "b", false⟩] } : App).notes,
      n.id = 2 := ⟨⟨2, "b", false⟩, by decide, rfl⟩
  obtain ⟨note, p, -, -, -, ht, hr, -, hres⟩ :=
    toggle_success_replaces_in_place
      { App.initial with notes := [⟨1, "a", false⟩, ⟨2, "b", false⟩] } 2 hex
  exact ⟨hex, note, p, ht, hr, (hres _ ⟨2, "b", true⟩).1⟩

/-- C7: on a local list that holds a note with the given id, when the update
fails the new local list is the list the toggle was started on without the
records of that id (every other record kept, as often and in the same
order); the error message is set exactly once, to a text that contains the
content of the note, and exactly one timer is started, with a delay of
5000 ms, whose firing clears the message. -/
theorem toggle_failure_prunes_and_notifies_once (a : App) (id : Nat)
    (h : ∃ n ∈ a.notes, n.id = id) :
    ∃ (note : Note) (p : Pending Note),
      a.notes.find? (fun n => n.id == id) = some note
      ∧ toggleImportanceOf a id = some p
      ∧ p.onRejected.filter Effect.isSetErrorMessage
          = [.setErrorMessage (some (removedMessage note.content))]
      ∧ p.onRejected.filter Effect.isTimeout = [.setTimeout 5000]
      ∧ (∃ pre post : String, removedMessage note.content = pre ++ note.content ++ post)
      ∧ ∀ cur : App,
          (reject cur p).notes.Sublist a.notes
          ∧ (∀ n ∈ (reject cur p).notes, n.id ≠ id)
          ∧ (∀ n : Note, n.id ≠ id → (reject cur p).notes.count n = a.notes.count n)
          ∧ (reject cur p).errorMessage = some (removedMessage note.content)
          ∧ (reject cur p).timers = cur.timers ++ [5000]
          ∧ (fire (reject { cur with timers := [] } p)).errorMessage = none := by
  obtain ⟨note, hf, -, -⟩ := find_of_exists a.notes id h
  refine ⟨note, _, hf, toggle_of_find a id note hf, rfl, rfl,
    ⟨"Note '", "' was already removed from server", rfl⟩, ?_⟩
  intro cur
  refine ⟨List.filter_sublist _, ?_, ?_, rfl, rfl, rfl⟩
  · intro n hn
    have := (List.mem_filter.mp hn).2
    simpa using this
  · intro n hn
    show (a.notes.filter (fun n => n.id != id)).count n = a.notes.count n
    rw [List.count_filter]
    simp [hn]

/-- Toggling note 2 of a two-note list when the update fails: note 2 is
dropped and the message names its content. -/
theorem toggle_failure_prunes_and_notifies_once_witness :
    (∃ n ∈ ({ App.initial with notes := [⟨1, "a", false⟩, ⟨2, "b", false⟩] } : App).notes,
        n.id = 2)
    ∧ ∃ p : Pending Note,
        toggleImportanceOf { App.initial with notes := [⟨1, "a", false⟩, ⟨2, "b", false⟩] } 2
          = some p
        ∧ (reject { App.initial with notes := [⟨1, "a", false⟩, ⟨2, "b", false⟩] } p).timers
          = [5000] := by
  have hex : ∃ n ∈ ({ App.initial with notes := [⟨1, "a", false⟩, ⟨2, "b", false⟩] } : App).notes,
      n.id = 2 := ⟨⟨2, "b", false⟩, by decide, rfl⟩
  obtain ⟨note, p, -, ht, -, -, -, hrej⟩ :=
    toggle_failure_prunes_and_notifies_once
      { App.initial with notes := [⟨1, "a", false⟩, ⟨2, "b", false⟩] } 2 hex
  exact ⟨hex, p, ht, (hrej _).2.2.2.2.1⟩

/-- C4: for every collection and every POST body whose content is absent
or empty, the handler answers 400 with the error "content missing" and
leaves the collection as it was; and when the create started by `addNote`
fails, the local list of notes is left as it was (only the error message is
set and a timer started). -/
theorem missing_content_rejected_and_lists_unchanged (ns : List Note) (body : Body)
    (h : body.content = none ∨ body.content = some "") :
    Server.postNote ns body = (ns, ⟨400, .error "content missing"⟩)
    ∧ (Server.getNotes (Server.postNote ns body).1) = Server.getNotes ns
    ∧ ∀ (a cur : App) (coin : Bool),
        (reject cur (addNote a coin)).notes = cur.notes
        ∧ (reject cur (addNote a coin)).newNote = cur.newNote
        ∧ (reject cur (addNote a coin)).errorMessage = some "Failed to add note" := by
  have hfalsy : Server.truthy body.content = false := by
    rcases h with h | h <;> simp [h, Server.truthy]
  have hrej := Server.postNote_reject ns body hfalsy
  refine ⟨hrej, by rw [hrej], ?_⟩
  intro a cur coin
  exact ⟨rfl, rfl, rfl⟩

/-- Posting an empty content to the initial collection is answered with 400
and the collection keeps its three notes. -/
theorem missing_content_rejected_and_lists_unchanged_witness :
    ((⟨some "", some true, some 4⟩ : Body).content = none
      ∨ (⟨some "", some true, some 4⟩ : Body).content = some "")
    ∧ (Server.postNote Server.notes ⟨some "", some true, some 4⟩).2.status = 400
    ∧ (Server.postNote Server.notes ⟨some "", some true, some 4⟩).1.length = 3 := by
  have hb : (⟨some "", some true, some 4⟩ : Body).content = none
      ∨ (⟨some "", some true, some 4⟩ : Body).content = some "" := Or.inr rfl
  have hpost :=
    (missing_content_rejected_and_lists_unchanged Server.notes ⟨some "", some true, some 4⟩ hb).1
  refine ⟨hb, ?_, ?_⟩
  · rw [hpost]
  · rw [hpost]
    rfl

/-- C8, as stated, fails: when `getAll` resolves to something that is not
an array, the local list becomes empty and a line is written to the console,
but the error notification stays unset, unlike on a transport failure. -/
theorem load_non_array_sets_no_notification :
    (resolve App.initial useEffect (.other "<!doctype html>")).notes = []
    ∧ (resolve App.initial useEffect (.other "<!doctype html>")).errorMessage = none
    ∧ (resolve App.initial useEffect (.other "<!doctype html>")).timers = []
    ∧ (reject App.initial useEffect).errorMessage = some "Failed to load notes" := by
  refine ⟨rfl, rfl, rfl, rfl⟩

/-- C8 (amended): for every value `getAll` resolves to on load: an array
becomes the local list exactly; anything else empties the local list and is
logged with `console.error`, while the error notification and the timers
stay as they were; on a transport failure the error notification is set to
"Failed to load notes", one clear is scheduled after 5000 ms and the local
list is not touched, so it is still the empty list of the first render. -/
theorem load_outcomes (cur : App) :
    (∀ initialNotes : List Note,
        (resolve cur useEffect (.array initialNotes)).notes = initialNotes
        ∧ (resolve cur useEffect (.array initialNotes)).errorMessage = cur.errorMessage)
    ∧ (∀ raw : String,
        (resolve cur useEffect (.other raw)).notes = []
        ∧ (resolve cur useEffect (.other raw)).errorMessage = cur.errorMessage
        ∧ (resolve cur useEffect (.other raw)).timers = cur.timers
        ∧ (resolve cur useEffect (.other raw)).errors
            = cur.errors ++ ["El backend devolvió un formato no válido:"])
    ∧ (reject cur useEffect).errorMessage = some "Failed to load notes"
    ∧ (reject cur useEffect).timers = cur.timers ++ [5000]
    ∧ (reject cur useEffect).notes = cur.notes
    ∧ (reject App.initial useEffect).notes = [] := by
  refine ⟨fun _ => ⟨rfl, rfl⟩, fun _ => ⟨rfl, rfl, rfl, rfl⟩, rfl, rfl, rfl, rfl⟩

/-- C9 fails on the code: two toggles started on the same list
`[note 1, note 2]` both succeed. Each `.then` callback writes the list of the
render it was created in with only its own record replaced, so after the
second response the record of the first toggle is back to its old value,
whichever response comes last. -/
theorem concurrent_toggles_lose_the_earlier_update :
    ∃ (p1 p2 : Pending Note),
      toggleImportanceOf { App.initial with notes := [⟨1, "a", false⟩, ⟨2, "b", false⟩] } 1
        = some p1
      ∧ toggleImportanceOf { App.initial with notes := [⟨1, "a", false⟩, ⟨2, "b", false⟩] } 2
        = some p2
      ∧ p1.request = .update 1 ⟨1, "a", true⟩
      ∧ p2.request = .update 2 ⟨2, "b", true⟩
      ∧ (resolve { App.initial with notes := [⟨1, "a", false⟩, ⟨2, "b", false⟩] } p1
          ⟨1, "a", true⟩).notes = [⟨1, "a", true⟩, ⟨2, "b", false⟩]
      ∧ (resolve
          (resolve { App.initial with notes := [⟨1, "a", false⟩, ⟨2, "b", false⟩] } p1
            ⟨1, "a", true⟩)
          p2 ⟨2, "b", true⟩).notes = [⟨1, "a", false⟩, ⟨2, "b", true⟩]
      ∧ (resolve
          (resolve { App.initial with notes := [⟨1, "a", false⟩, ⟨2, "b", false⟩] } p2
            ⟨2, "b", true⟩)
          p1 ⟨1, "a", true⟩).notes = [⟨1, "a", true⟩, ⟨2, "b", false⟩] := by
  refine ⟨_, _, toggle_of_find _ 1 ⟨1, "a", false⟩ rfl, toggle_of_find _ 2 ⟨2, "b", false⟩ rfl,
    rfl, rfl, ?_, ?_, ?_⟩ <;> decide

/-- C10, as stated, fails: the note handed to `create` carries the id chosen
by the client, here 1 on an empty local list. -/
theorem addNote_sends_the_placeholder_id :
    (addNote { App.initial with newNote := "hello" } true).request
      = .create ⟨some "hello", some true, some 1⟩
    ∧ (addNote { App.initial with newNote := "hello" } true).request
      ≠ .create ⟨some "hello", some true, none⟩ := by
  refine ⟨rfl, ?_⟩
  decide

/-- C10 (amended): for every local list and every pending input, `addNote`
hands to `create` a note carrying the content, the importance and the id
chosen by the client (length of the local list plus one), an id that the
note store does not read; when the create succeeds, the new local list is
the list `addNote` was started on with the returned note appended at the
end, and the pending input is the empty string. -/
theorem addNote_success_appends_returned_note (a : App) (coin : Bool) :
    (addNote a coin).request
      = .create ⟨some a.newNote, some coin, some (a.notes.length + 1)⟩
    ∧ effects a (addNote a coin).before = a
    ∧ (∀ (ns : List Note) (anyId : Option Nat),
        Server.postNote ns ⟨some a.newNote, some coin, some (a.notes.length + 1)⟩
          = Server.postNote ns ⟨some a.newNote, some coin, anyId⟩)
    ∧ ∀ (cur : App) (returnedNote : Note),
        (resolve cur (addNote a coin) returnedNote).notes = a.notes ++ [returnedNote]
        ∧ (resolve cur (addNote a coin) returnedNote).newNote = ""
        ∧ (resolve cur (addNote a coin) returnedNote).errorMessage = cur.errorMessage := by
  refine ⟨rfl, rfl, fun _ _ => rfl, fun _ _ => ⟨rfl, rfl, rfl⟩⟩

end Client

end PrimerRender
